import Mathlib

/-!
Verification development for the BlackRoad compliance framework.

The TypeScript sources are embedded shallowly:

* dynamic record data (the untyped values flowing through the evaluator and
  the parser) is the tagged tree `Value`; a JavaScript RegExp is modelled by
  the test function it denotes; object and array reference equality is
  modelled as `false`, since the embedding is pure and has no aliasing;
* machine time (`new Date()`) and generated entry ids are explicit arguments
  of the operations that read them, and timestamps are integers (epoch
  milliseconds);
* string-to-date parsing (`new Date(string)`) is an explicit parameter
  `dateP` of the parser; `new Date(number)` is modelled as always valid
  (the finite-range check of JavaScript dates is not modelled);
* fallible code (`throw`) returns `Except String`; the service operations
  return the resulting state alongside the result, so a thrown error
  returning the input state unchanged is a provable statement, not a
  modelling artifact (the source always checks before mutating).
-/

/-- Dynamic JavaScript values reachable by the evaluator and the parser:
the tagged tree of null, undefined, booleans, numbers, strings, regular
expressions (denoted by their test function), objects and arrays. -/
inductive Value where
  | vUndefined : Value
  | vNull : Value
  | vBool (b : Bool) : Value
  | vNum (n : Int) : Value
  | vStr (s : String) : Value
  | vRegex (test : String → Bool) : Value
  | vObj (fields : List (String × Value)) : Value
  | vArr (elems : List Value) : Value

/-- Result of the JavaScript typeof operator on a modelled value. -/
def jsTypeof : Value → String
  | .vUndefined => "undefined"
  | .vNull => "object"
  | .vBool _ => "boolean"
  | .vNum _ => "number"
  | .vStr _ => "string"
  | .vRegex _ => "object"
  | .vObj _ => "object"
  | .vArr _ => "object"

/-- Strict equality of JavaScript values. Primitives compare by
value; objects, arrays and regular expressions compare by reference, which
in this pure embedding is modelled as never equal. -/
def jsStrictEq : Value → Value → Bool
  | .vUndefined, .vUndefined => true
  | .vNull, .vNull => true
  | .vBool a, .vBool b => a == b
  | .vNum a, .vNum b => a == b
  | .vStr a, .vStr b => a == b
  | _, _ => false

/-- Property access on an array by a string key: the canonical decimal
indices hit the elements and the length property yields the length; other
keys are absent. -/
def jsArrGet (elems : List Value) (k : String) : Value :=
  if k = "length" then .vNum elems.length
  else
    match k.toNat? with
    | some i =>
      if h : i < elems.length then
        if toString i = k then elems.get ⟨i, h⟩ else .vUndefined
      else .vUndefined
    | none => .vUndefined

/-- Property access v[k] on an object-typed value; absent properties are
undefined, and accessing a property of a non-indexable value is undefined. -/
def jsGetProp (v : Value) (k : String) : Value :=
  match v with
  | .vObj fields => (fields.lookup k).getD .vUndefined
  | .vArr elems => jsArrGet elems k
  | _ => .vUndefined

/-- Nullish coalescing: the JavaScript expression x ?? d. -/
def jsCoalesce (x d : Value) : Value :=
  match x with
  | .vUndefined => d
  | .vNull => d
  | _ => x

/-- Whether the character list t occurs at the start of s. -/
def charsStartWith : List Char → List Char → Bool
  | _, [] => true
  | [], _ :: _ => false
  | a :: as, b :: bs => a == b && charsStartWith as bs

/-- Whether the character list t occurs contiguously inside s. -/
def charsContain : List Char → List Char → Bool
  | [], t => t.isEmpty
  | a :: as, t => charsStartWith (a :: as) t || charsContain as t

/-- Substring test of String.prototype.includes. -/
def jsIncludes (s t : String) : Bool :=
  charsContain s.data t.data

/-- Accumulating loop of jsSplitDot; acc holds the characters of the
current segment in reverse. -/
def splitDotAux : List Char → List Char → List String
  | [], acc => [String.mk acc.reverse]
  | c :: cs, acc =>
    if c = '.' then String.mk acc.reverse :: splitDotAux cs []
    else splitDotAux cs (c :: acc)

/-- String.prototype.split of a string on the dot separator; the empty
string splits to one empty segment. -/
def jsSplitDot (s : String) : List String :=
  splitDotAux s.data []

/-- Rule severity levels. -/
inductive Severity where
  | critical : Severity
  | high : Severity
  | medium : Severity
  | low : Severity
deriving DecidableEq

/-- Condition comparison operators. -/
inductive Operator where
  | equals : Operator
  | notEquals : Operator
  | contains : Operator
  | notContains : Operator
  | greaterThan : Operator
  | lessThan : Operator
  | matches : Operator
deriving DecidableEq

/-- One typed comparison of a record field. The declared TypeScript type of
the operand is string, number, boolean or RegExp, but the parser stores the
raw input value unchecked (a plain type cast), so the operand here is a full
dynamic value. -/
structure RuleCondition where
  field : String
  operator : Operator
  value : Value

/-- One compliance rule. -/
structure ComplianceRule where
  id : String
  name : String
  description : String
  severity : Severity
  category : String
  enabled : Bool
  conditions : List RuleCondition

/-- Per-rule outcome of an evaluation. -/
structure ValidationResult where
  ruleId : String
  ruleName : String
  passed : Bool
  severity : Severity
  message : String
  details : Option (List (String × Value)) := none

/-- Severity-bucketed pass and fail counts of one report. -/
structure Summary where
  total : Nat
  passed : Nat
  failed : Nat
  criticalFailures : Nat
  highFailures : Nat
  mediumFailures : Nat
  lowFailures : Nat

/-- One registered compliance policy. -/
structure CompliancePolicy where
  id : String
  name : String
  version : String
  description : String
  rules : List ComplianceRule
  createdAt : Int
  updatedAt : Int

/-- Evaluation report of one policy against one record. -/
structure ComplianceReport where
  policyId : String
  policyName : String
  timestamp : Int
  results : List ValidationResult
  summary : Summary

namespace RuleValidator

/-- Loop body of RuleValidator.getFieldValue: walk the remaining dotted-path
parts down from the current value; a null or undefined value and a
non-object-typed value both stop the walk with the undefined sentinel. -/
def getFieldValueAux : Value → List String → Value
  | v, [] => v
  | v, part :: parts =>
    match v with
    | .vNull => .vUndefined
    | .vUndefined => .vUndefined
    | .vObj fields => getFieldValueAux (jsGetProp (.vObj fields) part) parts
    | .vArr elems => getFieldValueAux (jsGetProp (.vArr elems) part) parts
    | .vRegex t => getFieldValueAux (jsGetProp (.vRegex t) part) parts
    | _ => .vUndefined

/-- Mirrors RuleValidator.getFieldValue: split the field on dots and walk
the record part by part. -/
def getFieldValue (data : List (String × Value)) (field : String) : Value :=
  getFieldValueAux (.vObj data) (jsSplitDot field)

/-- Mirrors RuleValidator.evaluateCondition. -/
def evaluateCondition (condition : RuleCondition) (data : List (String × Value)) : Bool :=
  let fieldValue := getFieldValue data condition.field
  match condition.operator with
  | .equals => jsStrictEq fieldValue condition.value
  | .notEquals => !(jsStrictEq fieldValue condition.value)
  | .contains =>
    match fieldValue, condition.value with
    | .vStr s, .vStr t => jsIncludes s t
    | _, _ => false
  | .notContains =>
    match fieldValue, condition.value with
    | .vStr s, .vStr t => !(jsIncludes s t)
    | _, _ => true
  | .greaterThan =>
    match fieldValue, condition.value with
    | .vNum a, .vNum b => decide (a > b)
    | _, _ => false
  | .lessThan =>
    match fieldValue, condition.value with
    | .vNum a, .vNum b => decide (a < b)
    | _, _ => false
  | .matches =>
    match fieldValue, condition.value with
    | .vStr s, .vRegex t => t s
    | _, _ => false

/-- Mirrors RuleValidator.validateRule. -/
def validateRule (rule : ComplianceRule) (data : List (String × Value)) : ValidationResult :=
  if !rule.enabled then
    { ruleId := rule.id
      ruleName := rule.name
      passed := true
      severity := rule.severity
      message := "Rule is disabled" }
  else
    let allConditionsPassed := rule.conditions.all fun condition =>
      evaluateCondition condition data
    { ruleId := rule.id
      ruleName := rule.name
      passed := allConditionsPassed
      severity := rule.severity
      message :=
        if allConditionsPassed then "Rule \"" ++ rule.name ++ "\" passed"
        else "Rule \"" ++ rule.name ++ "\" failed: " ++ rule.description }

end RuleValidator

namespace PolicyValidator

/-- Mirrors PolicyValidator.calculateSummary. -/
def calculateSummary (results : List ValidationResult) : Summary :=
  let failed := results.filter fun r => !r.passed
  { total := results.length
    passed := (results.filter fun r => r.passed).length
    failed := failed.length
    criticalFailures := (failed.filter fun r => r.severity == .critical).length
    highFailures := (failed.filter fun r => r.severity == .high).length
    mediumFailures := (failed.filter fun r => r.severity == .medium).length
    lowFailures := (failed.filter fun r => r.severity == .low).length }

/-- Mirrors PolicyValidator.validatePolicy; the evaluation wall-clock time
is the explicit argument now. -/
def validatePolicy (policy : CompliancePolicy) (data : List (String × Value))
    (now : Int) : ComplianceReport :=
  let results := policy.rules.map fun rule => RuleValidator.validateRule rule data
  { policyId := policy.id
    policyName := policy.name
    timestamp := now
    results := results
    summary := calculateSummary results }

/-- Mirrors PolicyValidator.isPolicyPassing. -/
def isPolicyPassing (report : ComplianceReport) : Bool :=
  report.summary.criticalFailures == 0 && report.summary.highFailures == 0

/-- Mirrors PolicyValidator.getFailedRules. -/
def getFailedRules (report : ComplianceReport) : List ValidationResult :=
  report.results.filter fun result => !result.passed

end PolicyValidator

mutual

/-- String coercion String(x) of a JavaScript value. Array elements render
recursively, joined by commas, with null and undefined elements empty, as
Array.prototype.join does. -/
def jsToString : Value → String
  | .vUndefined => "undefined"
  | .vNull => "null"
  | .vBool true => "true"
  | .vBool false => "false"
  | .vNum n => toString n
  | .vStr s => s
  | .vRegex _ => "[object RegExp]"
  | .vObj _ => "[object Object]"
  | .vArr elems => jsArrJoin elems

/-- Comma join of array elements for jsToString. -/
def jsArrJoin : List Value → String
  | [] => ""
  | v :: rest =>
    let s :=
      match v with
      | .vUndefined => ""
      | .vNull => ""
      | w => jsToString w
    match rest with
    | [] => s
    | _ :: _ => s ++ "," ++ jsArrJoin rest

end

namespace PolicyParser

/-- Mirrors PolicyParser.parseDate for inputs in the modelled value grammar.
Date instances are outside the grammar; string parsing is the supplied
environment function dateP; the finite range validity check of a numeric
date is not modelled. -/
def parseDate (dateP : String → Option Int) : Value → Option Int
  | .vStr s => dateP s
  | .vNum n => some n
  | _ => none

/-- Mirrors PolicyParser.parseSeverity. -/
def parseSeverity : Value → Severity
  | .vStr "critical" => .critical
  | .vStr "high" => .high
  | .vStr "medium" => .medium
  | .vStr "low" => .low
  | _ => .medium

/-- Mirrors the operator validation inside PolicyParser.parseCondition:
an operand equal to one of the seven operator names is kept, anything else
defaults to equals. -/
def parseOperator : Value → Operator
  | .vStr "equals" => .equals
  | .vStr "notEquals" => .notEquals
  | .vStr "contains" => .contains
  | .vStr "notContains" => .notContains
  | .vStr "greaterThan" => .greaterThan
  | .vStr "lessThan" => .lessThan
  | .vStr "matches" => .matches
  | _ => .equals

/-- Mirrors PolicyParser.parseCondition: the condition value is stored as
the raw input value (the source applies a type cast, not a conversion). -/
def parseCondition (input : Value) : RuleCondition :=
  { field := jsToString (jsCoalesce (jsGetProp input "field") (.vStr ""))
    operator := parseOperator (jsGetProp input "operator")
    value := jsGetProp input "value" }

/-- Whether a value is object-typed and not null, the filter condition of
PolicyParser.parseConditions. -/
def isObjectNotNull (v : Value) : Bool :=
  jsTypeof v == "object" && !(jsStrictEq v .vNull)

/-- Mirrors PolicyParser.parseConditions. -/
def parseConditions (input : Value) : List RuleCondition :=
  match input with
  | .vArr items => (items.filter isObjectNotNull).map parseCondition
  | _ => []

/-- Mirrors PolicyParser.parseRule. -/
def parseRule (input : Value) (index : Nat) : Except String ComplianceRule :=
  if jsTypeof input != "object" || jsStrictEq input .vNull then
    .error ("Invalid rule at index " ++ toString index ++ ": expected an object")
  else
    match jsGetProp input "id", jsGetProp input "name" with
    | .vStr ruleId, .vStr ruleName =>
      .ok
        { id := ruleId
          name := ruleName
          description := jsToString (jsCoalesce (jsGetProp input "description") (.vStr ""))
          severity := parseSeverity (jsGetProp input "severity")
          category := jsToString (jsCoalesce (jsGetProp input "category") (.vStr "general"))
          enabled := !(jsStrictEq (jsGetProp input "enabled") (.vBool false))
          conditions := parseConditions (jsGetProp input "conditions") }
    | _, _ =>
      .error ("Invalid rule at index " ++ toString index ++ ": missing id or name")

/-- Index-carrying traversal of the rules array by PolicyParser.parseRules. -/
def parseRuleList : List Value → Nat → Except String (List ComplianceRule)
  | [], _ => .ok []
  | item :: rest, index =>
    match parseRule item index with
    | .error e => .error e
    | .ok rule =>
      match parseRuleList rest (index + 1) with
      | .error e => .error e
      | .ok rules => .ok (rule :: rules)

/-- Mirrors PolicyParser.parseRules: a non-array input parses to the empty
rule list. -/
def parseRules (input : Value) : Except String (List ComplianceRule) :=
  match input with
  | .vArr items => parseRuleList items 0
  | _ => .ok []

/-- Mirrors PolicyParser.isValidPolicyInput. -/
def isValidPolicyInput (input : Value) : Bool :=
  if jsTypeof input != "object" || jsStrictEq input .vNull then false
  else
    jsTypeof (jsGetProp input "id") == "string" &&
    jsTypeof (jsGetProp input "name") == "string" &&
    (match jsGetProp input "rules" with
     | .vArr _ => true
     | _ => false)

/-- Mirrors PolicyParser.parsePolicy; now is the wall-clock time used for
the defaulted timestamps, dateP parses date strings. -/
def parsePolicy (dateP : String → Option Int) (now : Int) (input : Value) :
    Except String CompliancePolicy :=
  if !isValidPolicyInput input then
    .error "Invalid policy format: missing required fields"
  else
    match parseRules (jsGetProp input "rules") with
    | .error e => .error e
    | .ok rules =>
      .ok
        { id := jsToString (jsGetProp input "id")
          name := jsToString (jsGetProp input "name")
          version := jsToString (jsCoalesce (jsGetProp input "version") (.vStr "1.0.0"))
          description := jsToString (jsCoalesce (jsGetProp input "description") (.vStr ""))
          rules := rules
          createdAt := (parseDate dateP (jsGetProp input "createdAt")).getD now
          updatedAt := (parseDate dateP (jsGetProp input "updatedAt")).getD now }

end PolicyParser

/-- Kinds of audited actions. -/
inductive AuditAction where
  | validate : AuditAction
  | create : AuditAction
  | update : AuditAction
  | delete : AuditAction
deriving DecidableEq

/-- Kinds of audited resources. -/
inductive AuditResourceType where
  | policy : AuditResourceType
  | rule : AuditResourceType
  | report : AuditResourceType
deriving DecidableEq

/-- One audit log entry. -/
structure AuditLogEntry where
  id : String
  timestamp : Int
  action : AuditAction
  resourceType : AuditResourceType
  resourceId : String
  userId : String
  details : List (String × Value)

/-- State of an AuditLogger instance: the entry list and the configured
capacity (the constructor default is 10000). -/
structure AuditLogger where
  logs : List AuditLogEntry
  maxLogSize : Nat

/-- Array.prototype.slice with the single negative argument -(n): for
positive n the start index is the length minus n clamped at zero, but
-(0) is 0, so slicing from -(0) returns the whole array. -/
def jsSliceFromNeg (xs : List AuditLogEntry) (n : Nat) : List AuditLogEntry :=
  if n = 0 then xs else xs.drop (xs.length - n)

namespace AuditLogger

/-- Mirrors AuditLogger.trimLogs. -/
def trimLogs (st : AuditLogger) : AuditLogger :=
  if st.logs.length > st.maxLogSize then
    { st with logs := jsSliceFromNeg st.logs st.maxLogSize }
  else st

/-- Mirrors AuditLogger.log; the generated entry id and the current time
are the explicit arguments genId and now. -/
def log (st : AuditLogger) (genId : String) (now : Int) (action : AuditAction)
    (resourceType : AuditResourceType) (resourceId userId : String)
    (details : List (String × Value)) : AuditLogEntry × AuditLogger :=
  let entry : AuditLogEntry :=
    { id := genId
      timestamp := now
      action := action
      resourceType := resourceType
      resourceId := resourceId
      userId := userId
      details := details }
  (entry, trimLogs { st with logs := st.logs ++ [entry] })

end AuditLogger

/-- Environment inputs of one call of AuditLogger.log: the generated id,
the clock reading and the logged fields. -/
structure LogCall where
  genId : String
  now : Int
  action : AuditAction
  resourceType : AuditResourceType
  resourceId : String
  userId : String
  details : List (String × Value)

/-- Entry a log call appends before any trimming. -/
def entryOfCall (c : LogCall) : AuditLogEntry :=
  { id := c.genId
    timestamp := c.now
    action := c.action
    resourceType := c.resourceType
    resourceId := c.resourceId
    userId := c.userId
    details := c.details }

/-- Runs a sequence of log calls against an audit logger. -/
def runLog (st : AuditLogger) (calls : List LogCall) : AuditLogger :=
  calls.foldl
    (fun st c => (st.log c.genId c.now c.action c.resourceType c.resourceId c.userId c.details).2)
    st

/-- Insertion-ordered map update of a JavaScript Map: setting an existing
key replaces its value in place, a new key is appended. -/
def mapSet {α : Type} : List (String × α) → String → α → List (String × α)
  | [], k, v => [(k, v)]
  | (k1, v1) :: rest, k, v =>
    if k1 = k then (k, v) :: rest else (k1, v1) :: mapSet rest k v

/-- Key removal of a JavaScript Map. -/
def mapDelete {α : Type} : List (String × α) → String → List (String × α)
  | [], _ => []
  | (k1, v1) :: rest, k =>
    if k1 = k then rest else (k1, v1) :: mapDelete rest k

/-- State of a ComplianceService instance: the insertion-ordered policy map
and the owned audit logger (the validator and the parser are stateless). -/
structure ComplianceService where
  policies : List (String × CompliancePolicy)
  auditLogger : AuditLogger

namespace ComplianceService

/-- Mirrors ComplianceService.registerPolicy. The pair carries the thrown
error or the returned policy together with the resulting service state; the
source throws before any mutation, so on error the state is the input
state. -/
def registerPolicy (svc : ComplianceService) (dateP : String → Option Int)
    (now : Int) (genId : String) (policyInput : Value) (userId : String) :
    Except String CompliancePolicy × ComplianceService :=
  match PolicyParser.parsePolicy dateP now policyInput with
  | .error e => (.error e, svc)
  | .ok policy =>
    if (svc.policies.lookup policy.id).isSome then
      (.error ("Policy with ID \"" ++ policy.id ++ "\" already exists"), svc)
    else
      let svc1 : ComplianceService :=
        { svc with policies := mapSet svc.policies policy.id policy }
      let logger1 :=
        (svc1.auditLogger.log genId now .create .policy policy.id userId
          [("policyName", .vStr policy.name),
           ("ruleCount", .vNum policy.rules.length)]).2
      (.ok policy, { svc1 with auditLogger := logger1 })

/-- Mirrors ComplianceService.updatePolicy: existence is checked first, then
the input is parsed, the stored id is forced back to policyId and updatedAt
is set to the current time. -/
def updatePolicy (svc : ComplianceService) (dateP : String → Option Int)
    (now : Int) (genId : String) (policyId : String) (policyInput : Value)
    (userId : String) : Except String CompliancePolicy × ComplianceService :=
  if !(svc.policies.lookup policyId).isSome then
    (.error ("Policy with ID \"" ++ policyId ++ "\" not found"), svc)
  else
    match PolicyParser.parsePolicy dateP now policyInput with
    | .error e => (.error e, svc)
    | .ok parsed =>
      let policy := { parsed with id := policyId, updatedAt := now }
      let svc1 : ComplianceService :=
        { svc with policies := mapSet svc.policies policyId policy }
      let logger1 :=
        (svc1.auditLogger.log genId now .update .policy policyId userId
          [("policyName", .vStr policy.name),
           ("ruleCount", .vNum policy.rules.length)]).2
      (.ok policy, { svc1 with auditLogger := logger1 })

/-- Mirrors ComplianceService.deletePolicy. -/
def deletePolicy (svc : ComplianceService) (now : Int) (genId : String)
    (policyId : String) (userId : String) : Bool × ComplianceService :=
  if !(svc.policies.lookup policyId).isSome then
    (false, svc)
  else
    let svc1 : ComplianceService :=
      { svc with policies := mapDelete svc.policies policyId }
    let logger1 :=
      (svc1.auditLogger.log genId now .delete .policy policyId userId []).2
    (true, { svc1 with auditLogger := logger1 })

/-- Mirrors ComplianceService.getPolicy. -/
def getPolicy (svc : ComplianceService) (policyId : String) :
    Option CompliancePolicy :=
  svc.policies.lookup policyId

end ComplianceService

/-!
Concrete scenario data reused by several witnesses and counterexamples.
-/

/-- Date-string parser of an environment in which no date string parses. -/
def dp0 : String → Option Int := fun _ => none

/-- Minimal valid raw policy input with id p1 and no rules. -/
def inp0 : Value :=
  .vObj [("id", .vStr "p1"), ("name", .vStr "P"), ("rules", .vArr [])]

/-- Fresh service with an empty policy map and a default-capacity logger. -/
def svc0 : ComplianceService :=
  { policies := [], auditLogger := { logs := [], maxLogSize := 10000 } }

/-- Service after registering inp0 at time 100. -/
def svcReg : ComplianceService :=
  (ComplianceService.registerPolicy svc0 dp0 100 "a1" inp0 "u1").2

/-- Policy stored by that registration. -/
def polReg : CompliancePolicy :=
  { id := "p1", name := "P", version := "1.0.0", description := ""
    rules := [], createdAt := 100, updatedAt := 100 }

/-- Policy stored after updating p1 with inp0 at time 200. -/
def polUpd : CompliancePolicy :=
  { id := "p1", name := "P", version := "1.0.0", description := ""
    rules := [], createdAt := 200, updatedAt := 200 }

/-- One concrete audit log call. -/
def call0 : LogCall :=
  { genId := "a1", now := 1, action := .create, resourceType := .policy
    resourceId := "p1", userId := "u1", details := [] }

/-!
General list lemmas used by the summary invariants.
-/

/-- Filtering with the negated predicate counts the complement. -/
theorem length_filter_not {α : Type} (l : List α) (p : α → Bool) :
    (l.filter fun a => !p a).length = l.length - (l.filter p).length := by
  induction l with
  | nil => rfl
  | cons a l ih =>
    have hle : (l.filter p).length ≤ l.length := List.length_filter_le p l
    by_cases h : p a
    all_goals simp [h, ih]
    all_goals omega

/-- The four severity filters partition any list of results. -/
theorem length_filter_severity_partition (l : List ValidationResult) :
    (l.filter fun r => r.severity == .critical).length +
    (l.filter fun r => r.severity == .high).length +
    (l.filter fun r => r.severity == .medium).length +
    (l.filter fun r => r.severity == .low).length = l.length := by
  induction l with
  | nil => rfl
  | cons r l ih =>
    rcases h : r.severity <;> simp [h] <;> omega

/-- Composition of two filters is the filter of the conjunction. -/
theorem filter_filter_and {α : Type} (l : List α) (p q : α → Bool) :
    (l.filter p).filter q = l.filter fun a => p a && q a := by
  induction l with
  | nil => rfl
  | cons a l ih =>
    by_cases hp : p a <;> by_cases hq : q a <;> simp [hp, hq, ih]

/-- Updating a key makes lookup return the new value. -/
theorem lookup_mapSet_self {α : Type} (m : List (String × α)) (k : String) (v : α) :
    (mapSet m k v).lookup k = some v := by
  induction m with
  | nil => simp [mapSet]
  | cons kv m ih =>
    by_cases h : kv.1 = k
    · simp [mapSet, h]
    · simpa [mapSet, h, List.lookup, show (k == kv.1) = false by
        simp [BEq.beq]; exact fun hk => h hk.symm] using ih

/-!
Claim theorems.
-/

/-- C1: isPolicyPassing is true exactly when the critical and high failure
counters are both zero, and the medium and low counters never affect the
verdict. -/
theorem isPolicyPassing_spec (report : ComplianceReport) :
    (PolicyValidator.isPolicyPassing report = true ↔
      (report.summary.criticalFailures = 0 ∧ report.summary.highFailures = 0)) ∧
    ∀ m l : Nat,
      PolicyValidator.isPolicyPassing
        { report with summary :=
            { report.summary with mediumFailures := m, lowFailures := l } } =
        PolicyValidator.isPolicyPassing report := by
  constructor
  · simp [PolicyValidator.isPolicyPassing]
  · intro m l
    rfl

/-- C3: every report produced by validatePolicy satisfies
failed = total - passed, the four severity counters sum to failed, and each
severity counter counts exactly the failed results of its severity. -/
theorem validatePolicy_summary_spec (policy : CompliancePolicy)
    (data : List (String × Value)) (now : Int) :
    (PolicyValidator.validatePolicy policy data now).summary.failed =
      (PolicyValidator.validatePolicy policy data now).summary.total -
      (PolicyValidator.validatePolicy policy data now).summary.passed ∧
    (PolicyValidator.validatePolicy policy data now).summary.criticalFailures +
      (PolicyValidator.validatePolicy policy data now).summary.highFailures +
      (PolicyValidator.validatePolicy policy data now).summary.mediumFailures +
      (PolicyValidator.validatePolicy policy data now).summary.lowFailures =
      (PolicyValidator.validatePolicy policy data now).summary.failed ∧
    (PolicyValidator.validatePolicy policy data now).summary.criticalFailures =
      ((PolicyValidator.validatePolicy policy data now).results.filter fun r =>
        !r.passed && r.severity == .critical).length ∧
    (PolicyValidator.validatePolicy policy data now).summary.highFailures =
      ((PolicyValidator.validatePolicy policy data now).results.filter fun r =>
        !r.passed && r.severity == .high).length ∧
    (PolicyValidator.validatePolicy policy data now).summary.mediumFailures =
      ((PolicyValidator.validatePolicy policy data now).results.filter fun r =>
        !r.passed && r.severity == .medium).length ∧
    (PolicyValidator.validatePolicy policy data now).summary.lowFailures =
      ((PolicyValidator.validatePolicy policy data now).results.filter fun r =>
        !r.passed && r.severity == .low).length := by
  dsimp only [PolicyValidator.validatePolicy, PolicyValidator.calculateSummary]
  refine ⟨?_, ?_, ?_, ?_, ?_, ?_⟩
  · exact length_filter_not _ _
  · exact length_filter_severity_partition _
  · exact congrArg List.length (filter_filter_and _ _ _)
  · exact congrArg List.length (filter_filter_and _ _ _)
  · exact congrArg List.length (filter_filter_and _ _ _)
  · exact congrArg List.length (filter_filter_and _ _ _)

/-- C5: for operator notContains a type mismatch (either side not a string)
evaluates to true, while the same mismatch under contains evaluates to
false; with two strings notContains is the negated substring test. -/
theorem notContains_vacuous_asymmetry (f : String) (v : Value)
    (data : List (String × Value)) :
    (jsTypeof (RuleValidator.getFieldValue data f) ≠ "string" ∨ jsTypeof v ≠ "string" →
      RuleValidator.evaluateCondition { field := f, operator := .notContains, value := v } data = true ∧
      RuleValidator.evaluateCondition { field := f, operator := .contains, value := v } data = false) ∧
    (∀ s t : String, RuleValidator.getFieldValue data f = .vStr s → v = .vStr t →
      RuleValidator.evaluateCondition { field := f, operator := .notContains, value := v } data =
        !(jsIncludes s t)) := by
  constructor
  · intro h
    unfold RuleValidator.evaluateCondition
    dsimp only
    rcases hfv : RuleValidator.getFieldValue data f <;> rcases hv : v <;>
      simp_all [jsTypeof]
  · intro s t hs ht
    unfold RuleValidator.evaluateCondition
    dsimp only
    rw [hs, ht]

/-- Witness for C5 at a concrete type mismatch: a string field value and a
numeric operand make notContains pass vacuously. -/
theorem notContains_vacuous_asymmetry_witness :
    RuleValidator.evaluateCondition
      { field := "x", operator := .notContains, value := .vNum 3 }
      [("x", .vStr "abc")] = true :=
  ((notContains_vacuous_asymmetry "x" (.vNum 3) [("x", .vStr "abc")]).1
    (Or.inr (by simp [jsTypeof]))).1

/-- C6: a disabled rule validates to a passed result with the disabled
message, independently of the record and of the rule conditions. -/
theorem validateRule_disabled_passes (rule : ComplianceRule)
    (data : List (String × Value)) (h : rule.enabled = false) :
    RuleValidator.validateRule rule data =
      { ruleId := rule.id, ruleName := rule.name, passed := true
        severity := rule.severity, message := "Rule is disabled" } ∧
    ∀ conds : List RuleCondition,
      RuleValidator.validateRule { rule with conditions := conds } data =
        RuleValidator.validateRule rule data := by
  constructor
  · simp [RuleValidator.validateRule, h]
  · intro conds
    simp [RuleValidator.validateRule, h]

/-- Concrete disabled rule with a condition the record would falsify. -/
def disabledRule : ComplianceRule :=
  { id := "r1", name := "R", description := "d", severity := .high
    category := "security", enabled := false
    conditions := [{ field := "x", operator := .equals, value := .vStr "y" }] }

/-- Witness for C6: the disabled rule passes on a record falsifying its
condition. -/
theorem validateRule_disabled_passes_witness :
    RuleValidator.validateRule disabledRule [("x", .vStr "z")] =
      { ruleId := "r1", ruleName := "R", passed := true
        severity := .high, message := "Rule is disabled" } :=
  (validateRule_disabled_passes disabledRule [("x", .vStr "z")] rfl).1

/-- C8: the dotted-path walk stops with the undefined sentinel as soon as a
step hits null, undefined or a non-object-typed value; an absent field is
never strictly equal to a value other than undefined, so equals evaluates to
false there; in particular the nested path user.profile.role against the
record with an empty user object evaluates to false under equals. -/
theorem getFieldValue_total_absent :
    (∀ (v : Value) (part : String) (parts : List String),
      jsTypeof v ≠ "object" ∨ v = .vNull →
      RuleValidator.getFieldValueAux v (part :: parts) = .vUndefined) ∧
    (∀ (data : List (String × Value)) (f : String) (v : Value),
      RuleValidator.getFieldValue data f = .vUndefined → v ≠ .vUndefined →
      RuleValidator.evaluateCondition { field := f, operator := .equals, value := v } data = false) ∧
    RuleValidator.evaluateCondition
      { field := "user.profile.role", operator := .equals, value := .vStr "admin" }
      [("user", .vObj [])] = false := by
  refine ⟨?_, ?_, by decide⟩
  · intro v part parts h
    rcases v <;> simp_all [jsTypeof, RuleValidator.getFieldValueAux]
  · intro data f v habsent hne
    unfold RuleValidator.evaluateCondition
    dsimp only
    rw [habsent]
    rcases v <;> simp_all [jsStrictEq]

/-- Witness for C8: an empty record makes any field absent, and equals
against a concrete string evaluates to false. -/
theorem getFieldValue_total_absent_witness :
    RuleValidator.evaluateCondition
      { field := "a", operator := .equals, value := .vStr "x" } [] = false :=
  getFieldValue_total_absent.2.1 [] "a" (.vStr "x") rfl (fun h => Value.noConfusion h)

/-- C7: deleting an unknown policy id returns false and leaves the whole
service state unchanged: the policy map is untouched and no audit entry is
appended. -/
theorem deletePolicy_absent_no_side_effects (svc : ComplianceService)
    (now : Int) (genId policyId userId : String)
    (h : svc.policies.lookup policyId = none) :
    ComplianceService.deletePolicy svc now genId policyId userId = (false, svc) := by
  unfold ComplianceService.deletePolicy
  simp [h]

/-- Witness for C7: deleting the ghost id on a fresh service is a no-op. -/
theorem deletePolicy_absent_no_side_effects_witness :
    ComplianceService.deletePolicy svc0 5 "g1" "ghost" "u1" = (false, svc0) :=
  deletePolicy_absent_no_side_effects svc0 5 "g1" "ghost" "u1" rfl

/-- C10: updatePolicy checks existence before parsing, so an unknown id
fails with the not-found error for every input, parseable or not, and the
service state is returned unchanged. -/
theorem updatePolicy_absent_notFound (svc : ComplianceService)
    (dateP : String → Option Int) (now : Int) (genId policyId : String)
    (input : Value) (userId : String)
    (h : svc.policies.lookup policyId = none) :
    ComplianceService.updatePolicy svc dateP now genId policyId input userId =
      (.error ("Policy with ID \"" ++ policyId ++ "\" not found"), svc) := by
  unfold ComplianceService.updatePolicy
  simp [h]

/-- Witness for C10 at a malformed input: updating an unknown id with the
unparseable raw input null still yields the not-found error. -/
theorem updatePolicy_absent_notFound_witness :
    ComplianceService.updatePolicy svc0 dp0 5 "g1" "nope" .vNull "u1" =
      (.error "Policy with ID \"nope\" not found", svc0) :=
  updatePolicy_absent_notFound svc0 dp0 5 "g1" "nope" .vNull "u1" rfl

/-- C9: registering an input whose parsed id is already present throws the
duplicate-id error atomically: the service state is returned unchanged, so
the map still holds the old policy and no audit entry is appended. -/
theorem registerPolicy_duplicate_atomic (svc : ComplianceService)
    (dateP : String → Option Int) (now : Int) (genId : String) (input : Value)
    (userId : String) (pol : CompliancePolicy)
    (hp : PolicyParser.parsePolicy dateP now input = .ok pol)
    (hdup : (svc.policies.lookup pol.id).isSome = true) :
    ComplianceService.registerPolicy svc dateP now genId input userId =
      (.error ("Policy with ID \"" ++ pol.id ++ "\" already exists"), svc) := by
  unfold ComplianceService.registerPolicy
  rw [hp]
  simp [hdup]

/-- Witness for C9: re-registering inp0 after svcReg already holds p1 fails
with the duplicate error and leaves the state alone. -/
theorem registerPolicy_duplicate_atomic_witness :
    ComplianceService.registerPolicy svcReg dp0 100 "a2" inp0 "u1" =
      (.error "Policy with ID \"p1\" already exists", svcReg) :=
  registerPolicy_duplicate_atomic svcReg dp0 100 "a2" inp0 "u1" polReg rfl rfl

/-- Counterexample to C2: register p1 at time 100 (stored createdAt 100),
update it at time 200 with an input carrying no createdAt field; the stored
record's createdAt becomes 200, the parser's default for the update call,
not the 100 set at registration. -/
theorem updatePolicy_createdAt_not_preserved_cex :
    ((svcReg.policies.lookup "p1").map fun p => p.createdAt) = some 100 ∧
    (((ComplianceService.updatePolicy svcReg dp0 200 "a2" "p1" inp0 "u1").2.policies.lookup
        "p1").map fun p => p.createdAt) = some 200 ∧
    (200 : Int) ≠ 100 := by
  refine ⟨by decide, by decide, by decide⟩

/-- C2 as amended: after a successful update the stored id is forced back to
the original id, updatedAt is set to the update time (hence advances
whenever the previous updatedAt is not in the future), and createdAt is
re-derived by parsing the raw input (the input's createdAt if parseable,
else the update time) rather than preserved from registration. -/
theorem updatePolicy_id_forced_updatedAt_refreshed (svc : ComplianceService)
    (dateP : String → Option Int) (now : Int) (genId policyId : String)
    (input : Value) (userId : String) (pol : CompliancePolicy)
    (h : (ComplianceService.updatePolicy svc dateP now genId policyId input userId).1 =
      .ok pol) :
    pol.id = policyId ∧
    pol.updatedAt = now ∧
    (ComplianceService.updatePolicy svc dateP now genId policyId input
        userId).2.policies.lookup policyId = some pol ∧
    (∀ q, PolicyParser.parsePolicy dateP now input = .ok q →
      pol.createdAt = q.createdAt) ∧
    (∀ prev, svc.policies.lookup policyId = some prev → prev.updatedAt ≤ now →
      prev.updatedAt ≤ pol.updatedAt) := by
  by_cases hex : (svc.policies.lookup policyId).isSome = true
  · rcases hp : PolicyParser.parsePolicy dateP now input with e | q
    · rw [ComplianceService.updatePolicy] at h
      rw [hp] at h
      simp [hex] at h
    · rw [ComplianceService.updatePolicy] at h
      rw [hp] at h
      simp [hex] at h
      rw [ComplianceService.updatePolicy, hp]
      simp only [hex, Bool.not_true, Bool.false_eq_true, if_false]
      refine ⟨?_, ?_, ?_, ?_, ?_⟩
      · rw [← h]
      · rw [← h]
      · rw [← h]
        exact lookup_mapSet_self svc.policies policyId _
      · intro q1 hq1
        injection hq1 with hq
        subst hq
        rw [← h]
      · intro prev hprev hle
        rw [← h]
        exact hle
  · rw [ComplianceService.updatePolicy] at h
    simp [hex] at h

/-- Witness for the amended C2: the concrete update of p1 at time 200
succeeds, keeps id p1, stamps updatedAt 200 and stores the record. -/
theorem updatePolicy_id_forced_updatedAt_refreshed_witness :
    polUpd.id = "p1" ∧ polUpd.updatedAt = 200 ∧
    (ComplianceService.updatePolicy svcReg dp0 200 "a2" "p1" inp0
        "u1").2.policies.lookup "p1" = some polUpd :=
  ⟨(updatePolicy_id_forced_updatedAt_refreshed svcReg dp0 200 "a2" "p1" inp0 "u1"
      polUpd rfl).1,
   (updatePolicy_id_forced_updatedAt_refreshed svcReg dp0 200 "a2" "p1" inp0 "u1"
      polUpd rfl).2.1,
   (updatePolicy_id_forced_updatedAt_refreshed svcReg dp0 200 "a2" "p1" inp0 "u1"
      polUpd rfl).2.2.1⟩

/-- C4 fails on the code at capacity zero: one log call on a logger
configured with maxLogSize 0 retains the entry, because trimLogs slices
from index -(0), which is slice from 0 and keeps the whole array; the
claimed bound of at most zero entries is violated. -/
theorem auditLogger_capacity_zero_keeps_entries :
    (runLog { logs := [], maxLogSize := 0 } [call0]).logs.length = 1 ∧
    ¬((runLog { logs := [], maxLogSize := 0 } [call0]).logs.length ≤ 0) := by
  refine ⟨by decide, by decide⟩

/-- Keeping the last c elements, appending, and keeping the last c again is
keeping the last c of the full history. -/
theorem drop_last_append (c : Nat) (xs ys : List AuditLogEntry) :
    (xs.drop (xs.length - c) ++ ys).drop
        ((xs.drop (xs.length - c) ++ ys).length - c) =
      (xs ++ ys).drop ((xs ++ ys).length - c) := by
  rw [← List.drop_append_of_le_length (by omega)]
  rw [List.drop_drop]
  congr 1
  simp only [List.length_drop, List.length_append]
  omega

/-- One log call on a positive-capacity logger keeps exactly the last
maxLogSize entries of the appended list. -/
theorem log_snd_eq (st : AuditLogger) (hc : 1 ≤ st.maxLogSize) (c : LogCall) :
    (st.log c.genId c.now c.action c.resourceType c.resourceId c.userId c.details).2 =
      { logs := (st.logs ++ [entryOfCall c]).drop
          ((st.logs ++ [entryOfCall c]).length - st.maxLogSize)
        maxLogSize := st.maxLogSize } := by
  unfold AuditLogger.log AuditLogger.trimLogs jsSliceFromNeg entryOfCall
  by_cases h : st.logs.length + 1 > st.maxLogSize
  · simp only [List.length_append, List.length_cons, List.length_nil, Nat.zero_add, h,
      if_true, if_pos]
    rw [if_neg (by omega)]
  · simp only [List.length_append, List.length_cons, List.length_nil, Nat.zero_add, h,
      if_false, if_neg h]
    rw [show st.logs.length + 1 - st.maxLogSize = 0 by omega, List.drop_zero]

/-- Supporting theorem for the audit-log invariant: for every positive
capacity, after any sequence of log calls starting from a state within
capacity, the retained entries are exactly the most recent maxLogSize
entries of the full history, in their original order; in particular the
length never exceeds the capacity. -/
theorem runLog_fifo (c : Nat) (hc : 1 ≤ c) (calls : List LogCall) :
    ∀ L : List AuditLogEntry, L.length ≤ c →
      (runLog { logs := L, maxLogSize := c } calls).logs =
        (L ++ calls.map entryOfCall).drop ((L ++ calls.map entryOfCall).length - c) := by
  induction calls with
  | nil =>
    intro L hL
    simp only [runLog, List.foldl_nil, List.map_nil, List.append_nil]
    rw [show L.length - c = 0 by omega, List.drop_zero]
  | cons call calls ih =>
    intro L hL
    have hstep := log_snd_eq { logs := L, maxLogSize := c } hc call
    simp only [runLog, List.foldl_cons] at *
    rw [hstep]
    have hlen : ((L ++ [entryOfCall call]).drop
        ((L ++ [entryOfCall call]).length - c)).length ≤ c := by
      simp only [List.length_drop, List.length_append, List.length_cons, List.length_nil]
      omega
    rw [ih _ hlen]
    rw [drop_last_append]
    simp

/-- At every positive capacity the log length never exceeds the capacity
after any sequence of calls from the empty log. -/
theorem runLog_length_le (c : Nat) (hc : 1 ≤ c) (calls : List LogCall) :
    (runLog { logs := [], maxLogSize := c } calls).logs.length ≤ c := by
  rw [runLog_fifo c hc calls [] (by simp)]
  simp only [List.length_drop, List.nil_append]
  omega
